import Mathlib

/-!
# Verification of the NAPO Washington Report feed builder

A shallow embedding of `build_feed.py`: the candidate-link extractor, the
article date/title parsers (with their regular-expression searches modelled
at character level, including greedy backtracking), the aggregator
`collect_latest_items` (with HTTP fetching abstracted as an explicit
function argument), and the RSS renderer `build_rss`.

Python exceptions are modelled with `Except`/`Option`: a library call that
can raise `ValueError` returns `Except PyErr`, and every `try/except` of the
source appears as a `match` on that result.  Machine-level concerns do not
arise (all arithmetic is small-integer calendar arithmetic, modelled on
`Nat`/`Int`).
-/

/-- Python exception marker for `ValueError` raised by
`datetime.fromisoformat` / `datetime.strptime` / `datetime(...)`. -/
inductive PyErr where
  | valueError
deriving DecidableEq, Repr

/-- Errors of the `fetch` helper: `urllib.error.HTTPError` / `URLError`. -/
inductive NetErr where
  | httpError
  | urlError
deriving DecidableEq, Repr

/-! ## Character helpers -/

/-- Python `str.strip` / `\s` whitespace, restricted to the ASCII range
(the markup handled by the script is ASCII). -/
def isSpaceC (c : Char) : Bool :=
  c = ' ' || c = '\t' || c = '\n' || c = '\r' || c = '\x0b' || c = '\x0c'

/-- A regex word character `[A-Za-z0-9_]` (for `\b` boundaries). -/
def isWordC (c : Char) : Bool :=
  c.isAlpha || c.isDigit || c = '_'

/-- Case-insensitive character comparison (`re.IGNORECASE`, ASCII). -/
def ciEqC (p c : Char) : Bool :=
  p.toLower == c.toLower

/-- Numeric value of a decimal digit character. -/
def digitVal (c : Char) : Nat := c.toNat - 48

/-! ## List-of-characters helpers -/

/-- Case-sensitive test that `pat` is a prefix of `s`. -/
def leadsWith : List Char → List Char → Bool
  | [], _ => true
  | _ :: _, [] => false
  | p :: ps, c :: cs => p == c && leadsWith ps cs

/-- `containsSeg pat s` holds when `pat` occurs contiguously inside `s`. -/
def containsSeg (pat : List Char) : List Char → Bool
  | [] => leadsWith pat []
  | c :: cs => leadsWith pat (c :: cs) || containsSeg pat cs

/-- Case-insensitive literal matcher: consumes `pat` (up to ASCII case) from
the front of the subject and returns the rest. -/
def matchLitCI : List Char → List Char → Option (List Char)
  | [], s => some s
  | _ :: _, [] => none
  | p :: ps, c :: cs => if ciEqC p c then matchLitCI ps cs else none

/-- Try the continuation `k` on `s.drop i` for `i = n, n-1, ..., 1` —
the backtracking order of a greedy `+` quantifier. -/
def tryFromLen (k : List Char → Option (List Char)) (s : List Char) :
    Nat → Option (List Char)
  | 0 => none
  | n + 1 =>
    match k (s.drop (n + 1)) with
    | some v => some v
    | none => tryFromLen k s n

/-- Greedy `[class]+` with backtracking: consume at least one character
satisfying `p`, longest first, then run the continuation `k`. -/
def greedy1 (p : Char → Bool) (s : List Char) (k : List Char → Option (List Char)) :
    Option (List Char) :=
  tryFromLen k s (s.takeWhile p).length

/-- Consume one specific character. -/
def chomp (c : Char) : List Char → Option (List Char)
  | x :: r => if x = c then some r else none
  | [] => none

/-- Consume one of `"` or `'` (the regex class `["']`). -/
def quoteC : List Char → Option (List Char)
  | c :: r => if c = '"' || c = '\'' then some r else none
  | [] => none

/-- Two decimal digits. -/
def d2 : List Char → Option (Nat × List Char)
  | a :: b :: r =>
    if a.isDigit && b.isDigit then some (10 * digitVal a + digitVal b, r) else none
  | _ => none

/-- Four decimal digits. -/
def d4 : List Char → Option (Nat × List Char)
  | a :: b :: c :: d :: r =>
    if a.isDigit && b.isDigit && c.isDigit && d.isDigit then
      some (1000 * digitVal a + 100 * digitVal b + 10 * digitVal c + digitVal d, r)
    else none
  | _ => none

/-! ## Python string helpers used by the script -/

/-- `str.strip()` on a character list. -/
def pyStripL (l : List Char) : List Char :=
  ((l.dropWhile isSpaceC).reverse.dropWhile isSpaceC).reverse

/-- `str.strip()`. -/
def pyStrip (s : String) : String := ⟨pyStripL s.data⟩

/-- `s[:n]` slicing. -/
def strTake (n : Nat) (s : String) : String := ⟨s.data.take n⟩

/-- `raw.replace("Z", "+00:00")` at character level: the pattern is a single
character, so replacement is a per-character expansion. -/
def pyReplaceZL : List Char → List Char
  | [] => []
  | c :: cs => (if c = 'Z' then "+00:00".data else [c]) ++ pyReplaceZL cs

/-- `raw.replace("Z", "+00:00")`. -/
def pyReplaceZ (s : String) : String := ⟨pyReplaceZL s.data⟩

/-- `re.sub(r"\s+", " ", s)`: collapse every whitespace run to one space.
The flag records whether the previous character was whitespace. -/
def collapseWsGo : List Char → Bool → List Char
  | [], _ => []
  | c :: cs, prev =>
    if isSpaceC c then
      (if prev then collapseWsGo cs true else ' ' :: collapseWsGo cs true)
    else c :: collapseWsGo cs false

/-- `re.sub(r"\s+", " ", s)`. -/
def collapseWs (s : String) : String := ⟨collapseWsGo s.data false⟩

/-- Entities handled by the model of `html.unescape` (the core named
entities and their common numeric forms; this is the subset of the HTML5
table relevant to the markup the script handles — unknown entities pass
through unchanged, as in Python). -/
def entityTable : List (List Char × Char) :=
  [("amp;".data, '&'), ("lt;".data, '<'), ("gt;".data, '>'),
   ("quot;".data, '"'), ("apos;".data, '\''), ("#39;".data, '\''),
   ("#x27;".data, '\''), ("#34;".data, '"'), ("nbsp;".data, ' ')]

/-- Walk the entity table looking for a key that prefixes `l`. -/
def tryEntityGo (l : List Char) : List (List Char × Char) → Option (Char × List Char)
  | [] => none
  | (key, ch) :: rest =>
    if leadsWith key l then some (ch, l.drop key.length) else tryEntityGo l rest

/-- Try to read one entity body (after `&`) from the front of `l`. -/
def tryEntity (l : List Char) : Option (Char × List Char) :=
  tryEntityGo l entityTable

/-- `html.unescape`, fuelled (the fuel is the subject length, which bounds
the number of scanning steps). -/
def pyUnescapeGo : Nat → List Char → List Char
  | 0, l => l
  | _, [] => []
  | fuel + 1, c :: cs =>
    if c = '&' then
      match tryEntity cs with
      | some (ch, rest) => ch :: pyUnescapeGo fuel rest
      | none => '&' :: pyUnescapeGo fuel cs
    else c :: pyUnescapeGo fuel cs

/-- `html.unescape` (modelled subset, see `entityTable`). -/
def pyUnescape (s : String) : String := ⟨pyUnescapeGo (s.data.length + 1) s.data⟩

/-! ## The datetime model

`datetime.datetime` values are records of calendar components.  The script
only ever builds naive datetimes (timezone information is converted to UTC
and dropped at parse time), so no tzinfo field is needed on the value
itself; an aware parse result is a pair of a `DateTime` and an offset. -/

/-- A naive `datetime.datetime` (microseconds included, as Python keeps
them and they take part in comparisons). -/
structure DateTime where
  year : Nat
  month : Nat
  day : Nat
  hour : Nat
  minute : Nat
  second : Nat
  usec : Nat
deriving DecidableEq, Repr

/-- Gregorian leap year. -/
def isLeap (y : Nat) : Bool :=
  y % 4 = 0 && (y % 100 ≠ 0 || y % 400 = 0)

/-- Length of a month (months outside 1..12 default to 0; such values are
rejected by every validation that feeds this function). -/
def daysInMonth (y m : Nat) : Nat :=
  if m = 2 then (if isLeap y then 29 else 28)
  else [31, 31, 28, 31, 30, 31, 30, 31, 31, 30, 31, 30, 31].getD m 0

/-- Cumulative days before month `m` in a non-leap year. -/
def daysBeforeMonth (m : Nat) : Nat :=
  [0, 0, 31, 59, 90, 120, 151, 181, 212, 243, 273, 304, 334].getD m 0

/-- Python's proleptic-Gregorian ordinal (`date.toordinal`):
0001-01-01 has ordinal 1. -/
def pythonOrdinal (y m d : Nat) : Nat :=
  365 * (y - 1) + ((y - 1) / 4 - (y - 1) / 100) + (y - 1) / 400 +
    daysBeforeMonth m + (if 2 < m && isLeap y then 1 else 0) + d

/-- The calendar day after (y, m, d). -/
def nextDay (y m d : Nat) : Nat × Nat × Nat :=
  if d < daysInMonth y m then (y, m, d + 1)
  else if m < 12 then (y, m + 1, 1)
  else (y + 1, 1, 1)

/-- The calendar day before (y, m, d).  (For 0001-01-01 this underflows to
year 0, where CPython would raise `OverflowError`; no reachable input of
the script crosses that boundary.) -/
def prevDay (y m d : Nat) : Nat × Nat × Nat :=
  if 1 < d then (y, m, d - 1)
  else if 1 < m then (y, m - 1, daysInMonth y (m - 1))
  else (y - 1, 12, 31)

/-- `dt.astimezone(timezone.utc).replace(tzinfo=None)` for an aware
datetime whose UTC offset is `o` seconds: subtract the offset from the
wall-clock time.  Since parsed offsets satisfy `|o| < 86400`, the day moves
by at most one, which is exactly the normalisation CPython performs. -/
def astimezoneUTC (p : DateTime) (o : Int) : DateTime :=
  let t : Int := (p.hour * 3600 + p.minute * 60 + p.second : Nat) - o
  if t < 0 then
    let x := prevDay p.year p.month p.day
    ⟨x.1, x.2.1, x.2.2, ((t + 86400) / 3600).toNat, (((t + 86400) % 3600) / 60).toNat,
      ((t + 86400) % 60).toNat, p.usec⟩
  else if t < 86400 then
    ⟨p.year, p.month, p.day, (t / 3600).toNat, ((t % 3600) / 60).toNat,
      (t % 60).toNat, p.usec⟩
  else
    let x := nextDay p.year p.month p.day
    ⟨x.1, x.2.1, x.2.2, ((t - 86400) / 3600).toNat, (((t - 86400) % 3600) / 60).toNat,
      ((t - 86400) % 60).toNat, p.usec⟩

/-! ## `datetime.fromisoformat`

Modelled subset: `YYYY-MM-DD[<sep>HH[:MM[:SS[.ffffff]]]][±HH:MM[:SS]]`
with full range validation, which covers the extended ISO-8601 forms the
scraped pages carry (the script pre-replaces a trailing `Z` with `+00:00`
before calling it).  A failed parse models the raised `ValueError`. -/

/-- Microsecond value of a fractional-digits run (first six digits,
right-padded with zeros, as CPython truncates). -/
def usecOfDigits (ds : List Char) : Nat :=
  ((ds.take 6).foldl (fun a c => 10 * a + digitVal c) 0) * 10 ^ (6 - min 6 ds.length)

/-- Fractional part after the `.`/`,`: at least one digit. -/
def fracTail (r : List Char) : Option (Nat × List Char) :=
  let ds := r.takeWhile Char.isDigit
  if ds.isEmpty then none
  else some (usecOfDigits ds, r.dropWhile Char.isDigit)

/-- `HH[:MM[:SS[.ffffff]]]` returning (h, mi, s, usec, rest). -/
def parseTimeTail (l : List Char) : Option (Nat × Nat × Nat × Nat × List Char) :=
  match d2 l with
  | none => none
  | some (h, r1) =>
    match r1 with
    | ':' :: r2 =>
      match d2 r2 with
      | none => none
      | some (mi, r3) =>
        match r3 with
        | ':' :: r4 =>
          match d2 r4 with
          | none => none
          | some (s, r5) =>
            match r5 with
            | c :: r6 =>
              if c = '.' || c = ',' then
                match fracTail r6 with
                | none => none
                | some (us, r7) => some (h, mi, s, us, r7)
              else some (h, mi, s, 0, c :: r6)
            | [] => some (h, mi, s, 0, [])
        | _ => some (h, mi, 0, 0, r3)
    | _ => some (h, 0, 0, 0, r1)

/-- Offset body `HH:MM[:SS]`, in seconds; must consume the whole rest. -/
def offBody (r : List Char) : Option Nat :=
  match d2 r with
  | none => none
  | some (oh, r1) =>
    match chomp ':' r1 with
    | none => none
    | some r2 =>
      match d2 r2 with
      | none => none
      | some (om, r3) =>
        match r3 with
        | [] => if oh < 24 && om < 60 then some (oh * 3600 + om * 60) else none
        | ':' :: r4 =>
          match d2 r4 with
          | none => none
          | some (os, r5) =>
            if r5.isEmpty && oh < 24 && om < 60 && os < 60 then
              some (oh * 3600 + om * 60 + os)
            else none
        | _ => none

/-- Optional UTC offset closing the string: `±HH:MM[:SS]` or nothing. -/
def parseOffAll (l : List Char) : Option (Option Int) :=
  match l with
  | [] => some none
  | '+' :: r =>
    match offBody r with
    | some o => some (some (o : Int))
    | none => none
  | '-' :: r =>
    match offBody r with
    | some o => some (some (-(o : Int)))
    | none => none
  | _ => none

/-- Final range validation performed by the `datetime` constructor. -/
def finishIso (y mo dy h mi s us : Nat) (off : Option Int) :
    Option (DateTime × Option Int) :=
  if 1 ≤ y ∧ y ≤ 9999 ∧ 1 ≤ mo ∧ mo ≤ 12 ∧ 1 ≤ dy ∧ dy ≤ daysInMonth y mo ∧
      h ≤ 23 ∧ mi ≤ 59 ∧ s ≤ 59 then
    some (⟨y, mo, dy, h, mi, s, us⟩, off)
  else none

/-- `datetime.fromisoformat` on a character list; `none` models the raised
`ValueError`. -/
def parseIsoCh (l : List Char) : Option (DateTime × Option Int) :=
  match d4 l with
  | none => none
  | some (y, r1) =>
    match chomp '-' r1 with
    | none => none
    | some r2 =>
      match d2 r2 with
      | none => none
      | some (mo, r3) =>
        match chomp '-' r3 with
        | none => none
        | some r4 =>
          match d2 r4 with
          | none => none
          | some (dy, r5) =>
            match r5 with
            | [] => finishIso y mo dy 0 0 0 0 none
            | _ :: rt =>
              match parseTimeTail rt with
              | none => none
              | some (h, mi, s, us, r6) =>
                match parseOffAll r6 with
                | none => none
                | some off => finishIso y mo dy h mi s us off

/-- `datetime.fromisoformat` with the raised `ValueError` made explicit. -/
def fromisoformatE (s : String) : Except PyErr (DateTime × Option Int) :=
  match parseIsoCh s.data with
  | some r => .ok r
  | none => .error .valueError

/-- `if dt.tzinfo: dt = dt.astimezone(timezone.utc).replace(tzinfo=None)`. -/
def dropTz (r : DateTime × Option Int) : DateTime :=
  match r.2 with
  | none => r.1
  | some o => astimezoneUTC r.1 o

/-! ## `datetime.strptime` models

CPython compiles the format to a regex: `%Y` is exactly four digits, `%m`
is `(1[0-2]|0[1-9]|[1-9])`, `%d` is `(3[01]|[12]\d|0[1-9]|[1-9])`, `%B` is
the alternation of full month names (case-insensitively), a space matches
`\s+`, and the whole input must be consumed; the resulting `datetime`
constructor call then validates ranges. -/

/-- The full month names with their numbers. -/
def monthNames : List (List Char × Nat) :=
  [("January".data, 1), ("February".data, 2), ("March".data, 3),
   ("April".data, 4), ("May".data, 5), ("June".data, 6), ("July".data, 7),
   ("August".data, 8), ("September".data, 9), ("October".data, 10),
   ("November".data, 11), ("December".data, 12)]

/-- Walk the month-name table looking for a case-insensitive prefix. -/
def monthNameGo (l : List Char) : List (List Char × Nat) → Option (Nat × Nat)
  | [] => none
  | (nm, v) :: rest =>
    match matchLitCI nm l with
    | some _ => some (v, nm.length)
    | none => monthNameGo l rest

/-- Match one full month name (case-insensitive), returning its number and
length. -/
def monthNameMatch (l : List Char) : Option (Nat × Nat) :=
  monthNameGo l monthNames

/-- The `%m` pattern `(1[0-2]|0[1-9]|[1-9])` with its continuation
(alternatives tried in regex order). -/
def matchMon (l : List Char) (k : Nat → List Char → Option DateTime) :
    Option DateTime :=
  (match l with
   | a :: b :: r =>
     if a = '1' && ('0' ≤ b && b ≤ '2') then k (10 + digitVal b) r else none
   | _ => none) <|>
  (match l with
   | a :: b :: r =>
     if a = '0' && ('1' ≤ b && b ≤ '9') then k (digitVal b) r else none
   | _ => none) <|>
  (match l with
   | a :: r => if '1' ≤ a && a ≤ '9' then k (digitVal a) r else none
   | _ => none)

/-- The `%d` pattern `(3[01]|[12]\d|0[1-9]|[1-9])` with its continuation. -/
def matchDayNum (l : List Char) (k : Nat → List Char → Option DateTime) :
    Option DateTime :=
  (match l with
   | a :: b :: r =>
     if a = '3' && ('0' ≤ b && b ≤ '1') then k (30 + digitVal b) r else none
   | _ => none) <|>
  (match l with
   | a :: b :: r =>
     if ('1' ≤ a && a ≤ '2') && b.isDigit then k (10 * digitVal a + digitVal b) r
     else none
   | _ => none) <|>
  (match l with
   | a :: b :: r =>
     if a = '0' && ('1' ≤ b && b ≤ '9') then k (digitVal b) r else none
   | _ => none) <|>
  (match l with
   | a :: r => if '1' ≤ a && a ≤ '9' then k (digitVal a) r else none
   | _ => none)

/-- The `datetime(year, month, day)` constructor validation (midnight). -/
def mkDateValid (y mo dy : Nat) : Option DateTime :=
  if 1 ≤ y ∧ 1 ≤ mo ∧ mo ≤ 12 ∧ 1 ≤ dy ∧ dy ≤ daysInMonth y mo then
    some ⟨y, mo, dy, 0, 0, 0, 0⟩
  else none

/-- `datetime.strptime(s, "%Y-%m-%d")` on a character list. -/
def strptimeYmdCh (l : List Char) : Option DateTime :=
  match l with
  | a :: b :: c :: d :: rest =>
    if a.isDigit && b.isDigit && c.isDigit && d.isDigit then
      let y := 1000 * digitVal a + 100 * digitVal b + 10 * digitVal c + digitVal d
      match rest with
      | '-' :: r1 =>
        matchMon r1 (fun mo r2 =>
          match r2 with
          | '-' :: r3 =>
            matchDayNum r3 (fun dy r4 =>
              if r4.isEmpty then mkDateValid y mo dy else none)
          | _ => none)
      | _ => none
    else none
  | _ => none

/-- `datetime.strptime(s, "%Y-%m-%d")` with the `ValueError` explicit. -/
def strptimeYmdE (s : String) : Except PyErr DateTime :=
  match strptimeYmdCh s.data with
  | some d => .ok d
  | none => .error .valueError

/-- `datetime.strptime(s, "%B %d, %Y")` on a character list. -/
def strptimeBdYCh (l : List Char) : Option DateTime :=
  match monthNameMatch l with
  | none => none
  | some (mo, nlen) =>
    let r1 := l.drop nlen
    let ws1 := r1.takeWhile isSpaceC
    if ws1.isEmpty then none
    else
      matchDayNum (r1.drop ws1.length) (fun dy r3 =>
        match r3 with
        | ',' :: r4 =>
          let ws2 := r4.takeWhile isSpaceC
          if ws2.isEmpty then none
          else
            match d4 (r4.drop ws2.length) with
            | some (y, r5) => if r5.isEmpty then mkDateValid y mo dy else none
            | none => none
        | _ => none)

/-- `datetime.strptime(s, "%B %d, %Y")` with the `ValueError` explicit. -/
def strptimeBdYE (s : String) : Except PyErr DateTime :=
  match strptimeBdYCh s.data with
  | some d => .ok d
  | none => .error .valueError

/-! ## The regular-expression searches of the script

Each search is modelled at character level with the exact semantics of the
pattern: leftmost match position, greedy `[^>]+` with longest-first
backtracking, and case-insensitive literals (`re.IGNORECASE`). -/

/-- Leftmost-match driver: try the position matcher on every suffix, left
to right. -/
def searchO (mAt : List Char → Option (List Char)) : List Char → Option (List Char)
  | [] => mAt []
  | c :: cs =>
    match mAt (c :: cs) with
    | some v => some v
    | none => searchO mAt cs

/-- The trailing `content=["']([^"']+)["']` / `datetime=["']([^"']+)["']`
capture: an opening quote was just consumed; grab a nonempty run of
non-quote characters followed by a quote. -/
def quotedCapture (r : List Char) : Option (List Char) :=
  let cap := r.takeWhile (fun c => c != '"' && c != '\'')
  if cap.isEmpty then none
  else
    match r.drop cap.length with
    | c :: _ => if c = '"' || c = '\'' then some cap else none
    | [] => none

/-- Position matcher for
`<meta[^>]+property=["']<prop>["'][^>]+content=["']([^"']+)["']`. -/
def metaAt (prop : List Char) (l : List Char) : Option (List Char) :=
  match matchLitCI "<meta".data l with
  | none => none
  | some r1 =>
    greedy1 (fun c => c != '>') r1 (fun r2 =>
      match matchLitCI "property=".data r2 with
      | none => none
      | some r3 =>
        match quoteC r3 with
        | none => none
        | some r4 =>
          match matchLitCI prop r4 with
          | none => none
          | some r5 =>
            match quoteC r5 with
            | none => none
            | some r6 =>
              greedy1 (fun c => c != '>') r6 (fun r7 =>
                match matchLitCI "content=".data r7 with
                | none => none
                | some r8 =>
                  match quoteC r8 with
                  | none => none
                  | some r9 => quotedCapture r9))

/-- `re.search` for the `article:published_time` meta tag (group 1). -/
def metaPublishedTimeSearch (html : String) : Option String :=
  (searchO (metaAt "article:published_time".data) html.data).map (fun l => ⟨l⟩)

/-- `re.search` for the `og:title` meta tag (group 1). -/
def ogTitleSearch (html : String) : Option String :=
  (searchO (metaAt "og:title".data) html.data).map (fun l => ⟨l⟩)

/-- Position matcher for `<time[^>]+datetime=["']([^"']+)["']`. -/
def timeAt (l : List Char) : Option (List Char) :=
  match matchLitCI "<time".data l with
  | none => none
  | some r1 =>
    greedy1 (fun c => c != '>') r1 (fun r2 =>
      match matchLitCI "datetime=".data r2 with
      | none => none
      | some r3 =>
        match quoteC r3 with
        | none => none
        | some r4 => quotedCapture r4)

/-- `re.search` for the `<time datetime="...">` attribute (group 1). -/
def timeDatetimeSearch (html : String) : Option String :=
  (searchO timeAt html.data).map (fun l => ⟨l⟩)

/-- Lazy capture of `<title>(.*?)</title>` (DOTALL): everything up to the
first subsequent `</title>`; no closing tag means no match. -/
def grabUntilCloseTitle : List Char → Option (List Char)
  | [] => none
  | c :: cs =>
    match matchLitCI "</title>".data (c :: cs) with
    | some _ => some []
    | none => (grabUntilCloseTitle cs).map (fun t => c :: t)

/-- Position matcher for `<title>(.*?)</title>`. -/
def titleTagAt (l : List Char) : Option (List Char) :=
  match matchLitCI "<title>".data l with
  | none => none
  | some r => grabUntilCloseTitle r

/-- `re.search(r"<title>(.*?)</title>", s, re.IGNORECASE | re.DOTALL)`. -/
def titleTagSearch (html : String) : Option String :=
  (searchO titleTagAt html.data).map (fun l => ⟨l⟩)

/-- The day part `\d{1,2}` of `MONTH_DATE_RE` followed by the literal comma
(two digits tried greedily first, matching regex backtracking); returns the
number of day digits and the rest after the comma. -/
def monthDayComma (r : List Char) (k : Nat → List Char → Option (List Char)) :
    Option (List Char) :=
  match r with
  | a :: b :: rest =>
    if a.isDigit && b.isDigit then
      match rest with
      | ',' :: r2 => k 2 r2
      | _ => none
    else if a.isDigit && b = ',' then k 1 rest
    else none
  | _ => none

/-- Position matcher for `MONTH_DATE_RE` (the leading `\b` is checked by
the scanning driver); returns group 0, the whole matched text. -/
def monthAt (l : List Char) : Option (List Char) :=
  match monthNameMatch l with
  | none => none
  | some (_, nlen) =>
    let r1 := l.drop nlen
    let ws1 := r1.takeWhile isSpaceC
    if ws1.isEmpty then none
    else
      monthDayComma (r1.drop ws1.length) (fun dlen r3 =>
        let ws2 := r3.takeWhile isSpaceC
        if ws2.isEmpty then none
        else
          match r3.drop ws2.length with
          | a :: b :: c :: d :: rest =>
            if a.isDigit && b.isDigit && c.isDigit && d.isDigit then
              match rest with
              | e :: _ => if isWordC e then none
                          else some (l.take (nlen + ws1.length + dlen + 1 + ws2.length + 4))
              | [] => some (l.take (nlen + ws1.length + dlen + 1 + ws2.length + 4))
            else none
          | _ => none)

/-- Scanning driver for `MONTH_DATE_RE`, carrying the previous character
for the leading `\b` word boundary (month names start with a word
character, so the boundary requires a non-word predecessor or the start). -/
def monthScan : List Char → Option Char → Option (List Char)
  | [], _ => none
  | c :: cs, prev =>
    match (if (match prev with | none => true | some p => !(isWordC p)) then
             monthAt (c :: cs) else none) with
    | some g => some g
    | none => monthScan cs (some c)

/-- `MONTH_DATE_RE.search`, returning group 0. -/
def monthDateSearch (html : String) : Option String :=
  (monthScan html.data none).map (fun l => ⟨l⟩)

/-- Position matcher for `NEWS_HREF_RE = href="(/news/[^"#?]+)"`; returns
the captured href (original characters) and the rest after the closing
quote, for non-overlapping `finditer` continuation. -/
def newsAt (l : List Char) : Option (List Char × List Char) :=
  match matchLitCI "href=\"".data l with
  | none => none
  | some r1 =>
    match matchLitCI "/news/".data r1 with
    | none => none
    | some r2 =>
      let run := r2.takeWhile (fun c => c != '"' && c != '#' && c != '?')
      if run.isEmpty then none
      else
        match r2.drop run.length with
        | '"' :: rest => some (r1.take 6 ++ run, rest)
        | _ => none

/-- `NEWS_HREF_RE.finditer`: scan left to right, continuing after each
match end (fuelled by the subject length). -/
def finditerNews : Nat → List Char → List (List Char)
  | 0, _ => []
  | _, [] => []
  | fuel + 1, c :: cs =>
    match newsAt (c :: cs) with
    | some (cap, rest) => cap :: finditerNews fuel rest
    | none => finditerNews fuel cs

/-! ## The script's parsing functions -/

/-- Strategy 3 of `parse_article_date`: the `Month DD, YYYY` free-text
pattern, `strptime`-parsed, failures swallowed; then the final
`return None`. -/
def dateFromMonthText (html : String) : Except PyErr (Option DateTime) :=
  match monthDateSearch html with
  | some g0 =>
    match strptimeBdYE g0 with
    | .ok d => .ok (some d)
    | .error _ => .ok none
  | none => .ok none

/-- Strategies 2 and 3 of `parse_article_date`: the `<time datetime=...>`
attribute (ISO parse, then the `raw[:10]` retry as `%Y-%m-%d`), falling
through to the free-text month pattern. -/
def dateFromTimeOrText (html : String) : Except PyErr (Option DateTime) :=
  match timeDatetimeSearch html with
  | some cap =>
    let raw := pyStrip cap
    match fromisoformatE (pyReplaceZ raw) with
    | .ok r => .ok (some (dropTz r))
    | .error _ =>
      match strptimeYmdE (strTake 10 raw) with
      | .ok d => .ok (some d)
      | .error _ => dateFromMonthText html
  | none => dateFromMonthText html

/-- `parse_article_date`: meta `article:published_time`, then the `<time>`
element, then free text; every parsing failure is caught locally and falls
through to the next strategy. -/
def parse_article_date (html : String) : Except PyErr (Option DateTime) :=
  match metaPublishedTimeSearch html with
  | some cap =>
    match fromisoformatE (pyReplaceZ (pyStrip cap)) with
    | .ok r => .ok (some (dropTz r))
    | .error _ => dateFromTimeOrText html
  | none => dateFromTimeOrText html

/-- The result of strategy 1 of `parse_article_date` alone (used to state
that the later strategies are reached exactly when it yields nothing). -/
def metaDateResult (html : String) : Option DateTime :=
  match metaPublishedTimeSearch html with
  | some cap =>
    match fromisoformatE (pyReplaceZ (pyStrip cap)) with
    | .ok r => some (dropTz r)
    | .error _ => none
  | none => none

/-- `parse_article_title`: `og:title` (unescape + strip), else the
`<title>` text (unescape, collapse whitespace, strip), else `None`. -/
def parse_article_title (html : String) : Option String :=
  match ogTitleSearch html with
  | some cap => some (pyStrip (pyUnescape cap))
  | none =>
    match titleTagSearch html with
    | some cap => some (pyStrip (collapseWs (pyUnescape cap)))
    | none => none

/-! ## Candidate extraction and aggregation -/

/-- Configuration constants of the script. -/
def NAPO_URL : String := "https://www.napo.org/washington-report"

/-- The published feed's own URL. -/
def FEED_SELF : String := "https://tempest790.github.io/napo-washington-report-feed/feed.xml"

/-- How many items to include. -/
def MAX_ITEMS : Nat := 3

/-- One feed item record `{"title": ..., "date_dt": ..., "link": ...}`. -/
structure Item where
  title : String
  date_dt : DateTime
  link : String
deriving DecidableEq, Repr

/-- All `/news/` hrefs of the listing page in markup order (duplicates
kept), resolved against the site origin after `strip()`. -/
def newsUrlsAll (page : String) : List String :=
  (finditerNews (page.data.length + 1) page.data).map
    (fun cap => "https://www.napo.org" ++ pyStrip ⟨cap⟩)

/-- The dedup loop of `get_candidates_from_washington_report`: the `seen`
set always holds exactly the contents of the accumulated `urls` list, so it
is modelled by membership in that list. -/
def pyLoop : List String → List String → List String
  | [], urls => urls
  | h :: t, urls => if h ∈ urls then pyLoop t urls else pyLoop t (urls ++ [h])

/-- `get_candidates_from_washington_report`: scan, resolve, dedupe keeping
first occurrences, cap at 15. -/
def get_candidates_from_washington_report (page : String) : List String :=
  (pyLoop (newsUrlsAll page) []).take 15

/-- Descending-by-date comparison used by
`items.sort(key=lambda x: x["date_dt"], reverse=True)`: `itemGe a b` says
`a` may come before `b` (its date is not smaller).  Python compares
datetimes lexicographically on components. -/
def dtLtb (a b : DateTime) : Bool :=
  decide (a.year < b.year) ||
  (a.year == b.year && (decide (a.month < b.month) ||
  (a.month == b.month && (decide (a.day < b.day) ||
  (a.day == b.day && (decide (a.hour < b.hour) ||
  (a.hour == b.hour && (decide (a.minute < b.minute) ||
  (a.minute == b.minute && (decide (a.second < b.second) ||
  (a.second == b.second && decide (a.usec < b.usec))))))))))))

/-- `a <= b` on datetimes. -/
def dtLeb (a b : DateTime) : Bool := dtLtb a b || a == b

/-- `a` may precede `b` in the descending sort. -/
def itemGe (a b : Item) : Bool := dtLeb b.date_dt a.date_dt

/-- Stable insertion: `x` goes before the first element it need not
follow.  `insertItem`/`isort` is extensionally the stable descending sort
(`list.sort(..., reverse=True)`) of the source: a stable sort's output is
uniquely determined by the comparison and the input order. -/
def insertItem (x : Item) : List Item → List Item
  | [] => [x]
  | y :: ys => if itemGe x y then x :: y :: ys else y :: insertItem x ys

/-- Stable sort, descending by `date_dt`. -/
def isort : List Item → List Item
  | [] => []
  | x :: xs => insertItem x (isort xs)

/-- `parse_article_date` with the (unreachable) error branch flattened. -/
def parse_article_datePure (s : String) : Option DateTime :=
  match parse_article_date s with
  | .ok r => r
  | .error _ => none

/-- The aggregation loop of `collect_latest_items`, pure form: fetch each
candidate (failures skipped), parse date and title, keep only candidates
where the date parsed and the title is non-null and non-empty (Python
truthiness of `not title`). -/
def gatherItems (fetch : String → Except NetErr String) (cands : List String) :
    List Item :=
  cands.filterMap (fun url =>
    match fetch url with
    | .error _ => none
    | .ok a =>
      match parse_article_datePure a with
      | none => none
      | some dt =>
        match parse_article_title a with
        | none => none
        | some t => if t = "" then none else some ⟨t, dt, url⟩)

/-- The aggregation loop with Python's exception flow kept explicit: a
`ValueError` escaping `parse_article_date` would propagate out of the loop
(the `try` there only guards the fetch). -/
def gatherE (fetch : String → Except NetErr String) :
    List String → Except PyErr (List Item)
  | [] => .ok []
  | url :: rest =>
    match fetch url with
    | .error _ => gatherE fetch rest
    | .ok a =>
      match parse_article_date a with
      | .error e => .error e
      | .ok od =>
        match od with
        | none => gatherE fetch rest
        | some dt =>
          match parse_article_title a with
          | none => gatherE fetch rest
          | some t =>
            if t = "" then gatherE fetch rest
            else (gatherE fetch rest).map (fun items => ⟨t, dt, url⟩ :: items)

/-- `collect_latest_items`, with the HTTP layer abstracted as `fetch`.  A
listing-page `HTTPError`/`URLError` yields the empty list; candidate
pages are then fetched, parsed, sorted descending by date (stable), and
truncated to `MAX_ITEMS`. -/
def collect_latest_items (fetch : String → Except NetErr String) :
    Except PyErr (List Item) :=
  match fetch NAPO_URL with
  | .error _ => .ok []
  | .ok wr =>
    match gatherE fetch (get_candidates_from_washington_report wr) with
    | .error e => .error e
    | .ok items => .ok ((isort items).take MAX_ITEMS)

/-- The pre-sort item list of a run (empty when the listing fetch fails). -/
def preItemsOf (fetch : String → Except NetErr String) : List Item :=
  match fetch NAPO_URL with
  | .error _ => []
  | .ok wr => gatherItems fetch (get_candidates_from_washington_report wr)

/-! ## The RSS renderer -/

/-- One character of `html.escape` output. -/
def replChar (c : Char) (r : List Char) : List Char → List Char
  | [] => []
  | x :: xs => (if x = c then r else [x]) ++ replChar c r xs

/-- `html.escape(s, quote=True)`: sequential replacement of `&`, `<`, `>`,
`"`, `'`, in CPython's order. -/
def htmlEscapeL (l : List Char) : List Char :=
  replChar '\'' "&#x27;".data
    (replChar '"' "&quot;".data
      (replChar '>' "&gt;".data
        (replChar '<' "&lt;".data
          (replChar '&' "&amp;".data l))))

/-- `html.escape(s, quote=True)`. -/
def htmlEscape (s : String) : String := ⟨htmlEscapeL s.data⟩

/-- Digit character `n % 10`. -/
def digitChar (n : Nat) : Char := "0123456789".data.getD (n % 10) '0'

/-- Decimal digits of `n`, fuelled so that the kernel can evaluate it. -/
def natDigitsGo : Nat → Nat → List Char
  | 0, _ => []
  | fuel + 1, n =>
    if n < 10 then [digitChar n] else natDigitsGo fuel (n / 10) ++ [digitChar n]

/-- Decimal digits of `n`. -/
def natDigits (n : Nat) : List Char := natDigitsGo (n + 1) n

/-- Zero-padded decimal rendering of width `w` (strftime `%d`, `%H`...). -/
def padNat (w n : Nat) : List Char :=
  List.replicate (w - (natDigits n).length) '0' ++ natDigits n

/-- strftime `%a` weekday abbreviations, Monday first (ordinal 1, i.e.
0001-01-01, was a Monday in the proleptic Gregorian calendar). -/
def dayAbbrevs : List String := ["Mon", "Tue", "Wed", "Thu", "Fri", "Sat", "Sun"]

/-- strftime `%b` month abbreviations. -/
def monAbbrevs : List String :=
  ["Jan", "Feb", "Mar", "Apr", "May", "Jun", "Jul", "Aug", "Sep", "Oct", "Nov", "Dec"]

/-- strftime `%B` full month names. -/
def monFulls : List String :=
  ["January", "February", "March", "April", "May", "June", "July", "August",
   "September", "October", "November", "December"]

/-- The `%a` weekday name of a date. -/
def weekdayName (y m d : Nat) : String :=
  dayAbbrevs.getD ((pythonOrdinal y m d + 6) % 7) ""

/-- `dt.strftime("%a, %d %b %Y %H:%M:%S +0000")` at character level. -/
def rfc2822L (dt : DateTime) : List Char :=
  (weekdayName dt.year dt.month dt.day).data ++ ", ".data ++ padNat 2 dt.day ++
    " ".data ++ (monAbbrevs.getD (dt.month - 1) "").data ++ " ".data ++
    padNat 4 dt.year ++ " ".data ++ padNat 2 dt.hour ++ ":".data ++
    padNat 2 dt.minute ++ ":".data ++ padNat 2 dt.second ++ " +0000".data

/-- `to_rfc2822`. -/
def to_rfc2822 (dt : DateTime) : String := ⟨rfc2822L dt⟩

/-- `pub_dt.strftime("%B %d, %Y")`. -/
def dateBdY (dt : DateTime) : String :=
  ⟨(monFulls.getD (dt.month - 1) "").data ++ " ".data ++ padNat 2 dt.day ++
    ", ".data ++ padNat 4 dt.year⟩

/-- The `link_html` body snippet built for every item. -/
def link_html (link : String) : String :=
  "<p><a href=\"" ++ (htmlEscape link ++ "\">Open the full article on NAPO</a></p>")

/-- One rendered `<item>` block (the item f-string of `build_rss`, with
`link_html` inlined at its two interpolation sites). -/
def rssItem (it : Item) : String :=
  "    <item>\n      <title>" ++
    (htmlEscape it.title ++
      ("</title>\n      <link>" ++
        (htmlEscape it.link ++
          ("</link>\n      <guid isPermaLink=\"true\">" ++
            (htmlEscape it.link ++
              ("</guid>\n      <pubDate>" ++
                (to_rfc2822 it.date_dt ++
                  ("</pubDate>\n      <description><![CDATA[" ++
                    (dateBdY it.date_dt ++
                      ("<br/>" ++
                        (link_html it.link ++
                          ("]]></description>\n      <content:encoded><![CDATA[" ++
                            (link_html it.link ++
                              "]]></content:encoded>\n    </item>")))))))))))))

/-- `"\n".join(rss_items)`. -/
def joinNl : List String → String
  | [] => ""
  | [x] => x
  | x :: y :: xs => x ++ ("\n" ++ joinNl (y :: xs))

/-- The channel header, up to and including `<lastBuildDate>` (the channel
constants of `build_rss` inlined and escaped exactly as the source does). -/
def channelPre : String :=
  "<?xml version=\"1.0\" encoding=\"UTF-8\"?>\n<rss version=\"2.0\"\n     xmlns:atom=\"http://www.w3.org/2005/Atom\"\n     xmlns:content=\"http://purl.org/rss/1.0/modules/content/\">\n  <channel>\n    <title>" ++
    (htmlEscape "NAPO Washington Report (Latest)" ++
      ("</title>\n    <link>" ++
        (htmlEscape NAPO_URL ++
          ("</link>\n    <atom:link href=\"" ++
            (htmlEscape FEED_SELF ++
              ("\" rel=\"self\" type=\"application/rss+xml\" />\n    <description>" ++
                (htmlEscape "Latest Washington Report entries from NAPO (title + date + link)." ++
                  "</description>\n    <lastBuildDate>")))))))

/-- `build_rss(items)`, with `datetime.utcnow()` passed explicitly. -/
def build_rss (now : DateTime) (items : List Item) : String :=
  channelPre ++
    (to_rfc2822 now ++
      ("</lastBuildDate>\n" ++
        (joinNl (items.map rssItem) ++ "\n  </channel>\n</rss>\n")))


/-! ## Concrete fixtures used to instantiate the general theorems -/

/-- A listing page with one `/news/` link. -/
def listingW : String := "<html><a href=\"/news/alpha\">A</a></html>"

/-- An article page carrying both an `og:title` and a structured
published-time value. -/
def articleW : String :=
  "<head><meta property=\"og:title\" content=\"Alpha Report\"/><meta property=\"article:published_time\" content=\"2026-03-01T00:00:00Z\"/></head>"

/-- A canned fetch: the listing plus one article, all else failing. -/
def fetchW : String → Except NetErr String := fun u =>
  if u = NAPO_URL then .ok listingW
  else if u = "https://www.napo.org/news/alpha" then .ok articleW
  else .error .urlError

/-- The single item the canned run produces. -/
def itemW : Item :=
  ⟨"Alpha Report", ⟨2026, 3, 1, 0, 0, 0, 0⟩, "https://www.napo.org/news/alpha"⟩

/-- A listing with sixteen distinct `/news/` links (one duplicated). -/
def bigListing : String :=
  "<a href=\"/news/p01\">.</a><a href=\"/news/p02\">.</a><a href=\"/news/p03\">.</a><a href=\"/news/p04\">.</a><a href=\"/news/p01\">.</a><a href=\"/news/p05\">.</a><a href=\"/news/p06\">.</a><a href=\"/news/p07\">.</a><a href=\"/news/p08\">.</a><a href=\"/news/p09\">.</a><a href=\"/news/p10\">.</a><a href=\"/news/p11\">.</a><a href=\"/news/p12\">.</a><a href=\"/news/p13\">.</a><a href=\"/news/p14\">.</a><a href=\"/news/p15\">.</a><a href=\"/news/p16\">.</a>"

/-- A listing with one URL appearing twice. -/
def smallListing : String :=
  "<a href=\"/news/a\">x</a><a href=\"/news/a\">y</a>"

/-- `spanSafeB p0 pat a`: every suffix of `a` whose head is `pat`'s first
character `p0` is at least as long as `pat` and does not start with `pat`.
Under this condition no occurrence of `pat` can start inside `a`, even when
`a` is extended to the right. -/
def spanSafeB (p0 : Char) (pat : List Char) : List Char → Bool
  | [] => true
  | c :: cs =>
    (if c = p0 then decide (pat.length ≤ (c :: cs).length) && !(leadsWith pat (c :: cs))
     else true) && spanSafeB p0 pat cs

/-! ## Order lemmas for the descending stable sort -/

theorem dtLeb_refl (a : DateTime) : dtLeb a a = true := by
  simp [dtLeb]

theorem dtLeb_total (a b : DateTime) : dtLeb a b = true ∨ dtLeb b a = true := by
  cases a; cases b
  simp only [dtLeb, dtLtb, Bool.or_eq_true, Bool.and_eq_true, decide_eq_true_eq,
    beq_iff_eq, DateTime.mk.injEq]
  omega

theorem dtLeb_trans {a b c : DateTime} (h1 : dtLeb a b = true)
    (h2 : dtLeb b c = true) : dtLeb a c = true := by
  cases a; cases b; cases c
  simp only [dtLeb, dtLtb, Bool.or_eq_true, Bool.and_eq_true, decide_eq_true_eq,
    beq_iff_eq, DateTime.mk.injEq] at h1 h2 ⊢
  omega

theorem itemGe_total (a b : Item) : itemGe a b = true ∨ itemGe b a = true :=
  (dtLeb_total b.date_dt a.date_dt).elim .inl .inr

theorem itemGe_trans {a b c : Item} (h1 : itemGe a b = true)
    (h2 : itemGe b c = true) : itemGe a c = true :=
  dtLeb_trans h2 h1

theorem insertItem_cons (x y : Item) (ys : List Item) :
    insertItem x (y :: ys) =
      if itemGe x y then x :: y :: ys else y :: insertItem x ys := rfl

theorem mem_insertItem {x z : Item} {l : List Item} :
    z ∈ insertItem x l ↔ z = x ∨ z ∈ l := by
  induction l with
  | nil => simp [insertItem]
  | cons y ys ih =>
    rw [insertItem_cons]
    by_cases h : itemGe x y = true
    · rw [if_pos h]
      exact List.mem_cons
    · rw [if_neg h]
      simp only [List.mem_cons, ih]
      tauto

theorem pairwise_insertItem {x : Item} {l : List Item}
    (hl : l.Pairwise (fun a b => itemGe a b = true)) :
    (insertItem x l).Pairwise (fun a b => itemGe a b = true) := by
  induction l with
  | nil => simp [insertItem]
  | cons y ys ih =>
    rcases List.pairwise_cons.mp hl with ⟨hy, hys⟩
    rw [insertItem_cons]
    by_cases h : itemGe x y = true
    · rw [if_pos h]
      refine List.pairwise_cons.mpr ⟨?_, hl⟩
      intro z hz
      rcases List.mem_cons.mp hz with rfl | hz
      · exact h
      · exact itemGe_trans h (hy z hz)
    · rw [if_neg h]
      refine List.pairwise_cons.mpr ⟨?_, ih hys⟩
      intro z hz
      rcases mem_insertItem.mp hz with rfl | hz
      · exact (itemGe_total _ _).resolve_left h
      · exact hy z hz

theorem isort_pairwise (l : List Item) :
    (isort l).Pairwise (fun a b => itemGe a b = true) := by
  induction l with
  | nil => exact List.Pairwise.nil
  | cons x xs ih => exact pairwise_insertItem ih

theorem mem_isort {z : Item} {l : List Item} : z ∈ isort l ↔ z ∈ l := by
  induction l with
  | nil => simp [isort]
  | cons x xs ih =>
    show z ∈ insertItem x (isort xs) ↔ _
    rw [mem_insertItem]
    simp [ih, eq_comm]

theorem filter_insertItem_date (x : Item) (l : List Item) (dv : DateTime) :
    (insertItem x l).filter (fun it => it.date_dt == dv) =
      ((x :: l).filter (fun it => it.date_dt == dv)) := by
  induction l with
  | nil => rfl
  | cons y ys ih =>
    rw [insertItem_cons]
    by_cases h : itemGe x y = true
    · rw [if_pos h]
    · rw [if_neg h]
      have hneq : ¬((y.date_dt == dv) = true ∧ (x.date_dt == dv) = true) := by
        rintro ⟨hy, hx⟩
        have heq : y.date_dt = x.date_dt := (beq_iff_eq.mp hy).trans (beq_iff_eq.mp hx).symm
        exact h (by simpa [itemGe, heq] using dtLeb_refl x.date_dt)
      rw [List.filter_cons, List.filter_cons]
      by_cases hy : (y.date_dt == dv) = true
      · have hx : ¬((x.date_dt == dv) = true) := fun hx => hneq ⟨hy, hx⟩
        simp only [hy, if_true, if_neg hx, ih, List.filter_cons]
      · by_cases hx : (x.date_dt == dv) = true
        · simp only [if_neg hy, if_pos hx, ih, List.filter_cons]
        · simp only [if_neg hy, if_neg hx, ih, List.filter_cons]

theorem isort_filter_date (l : List Item) (dv : DateTime) :
    (isort l).filter (fun it => it.date_dt == dv) =
      l.filter (fun it => it.date_dt == dv) := by
  induction l with
  | nil => rfl
  | cons x xs ih =>
    show (insertItem x (isort xs)).filter _ = _
    rw [filter_insertItem_date, List.filter_cons, List.filter_cons, ih]

/-! ## `parse_article_date` never raises -/

theorem dateFromMonthText_ok (html : String) :
    ∃ r, dateFromMonthText html = .ok r := by
  cases h : monthDateSearch html with
  | none => exact ⟨none, by simp [dateFromMonthText, h]⟩
  | some g0 =>
    cases h2 : strptimeBdYE g0 with
    | error e => exact ⟨none, by simp [dateFromMonthText, h, h2]⟩
    | ok d => exact ⟨some d, by simp [dateFromMonthText, h, h2]⟩

theorem dateFromTimeOrText_ok (html : String) :
    ∃ r, dateFromTimeOrText html = .ok r := by
  cases h : timeDatetimeSearch html with
  | none =>
    obtain ⟨r, hr⟩ := dateFromMonthText_ok html
    exact ⟨r, by simp [dateFromTimeOrText, h, hr]⟩
  | some cap =>
    cases h2 : fromisoformatE (pyReplaceZ (pyStrip cap)) with
    | ok r => exact ⟨some (dropTz r), by simp [dateFromTimeOrText, h, h2]⟩
    | error e =>
      cases h3 : strptimeYmdE (strTake 10 (pyStrip cap)) with
      | ok d => exact ⟨some d, by simp [dateFromTimeOrText, h, h2, h3]⟩
      | error e2 =>
        obtain ⟨r, hr⟩ := dateFromMonthText_ok html
        exact ⟨r, by simp [dateFromTimeOrText, h, h2, h3, hr]⟩

theorem parse_article_date_ok (html : String) :
    ∃ r, parse_article_date html = .ok r := by
  cases h : metaPublishedTimeSearch html with
  | none =>
    obtain ⟨r, hr⟩ := dateFromTimeOrText_ok html
    exact ⟨r, by simp [parse_article_date, h, hr]⟩
  | some cap =>
    cases h2 : fromisoformatE (pyReplaceZ (pyStrip cap)) with
    | ok r => exact ⟨some (dropTz r), by simp [parse_article_date, h, h2]⟩
    | error e =>
      obtain ⟨r, hr⟩ := dateFromTimeOrText_ok html
      exact ⟨r, by simp [parse_article_date, h, h2, hr]⟩

theorem parse_article_date_eq_pure (html : String) :
    parse_article_date html = .ok (parse_article_datePure html) := by
  obtain ⟨r, hr⟩ := parse_article_date_ok html
  simp [parse_article_datePure, hr]

/-! ## The aggregation loop in pure form -/

theorem gatherE_eq (fetch : String → Except NetErr String) (cands : List String) :
    gatherE fetch cands = .ok (gatherItems fetch cands) := by
  induction cands with
  | nil => rfl
  | cons url rest ih =>
    have hp : ∀ a, parse_article_date a = .ok (parse_article_datePure a) :=
      parse_article_date_eq_pure
    cases hf : fetch url with
    | error e => simp [gatherE, gatherItems, List.filterMap_cons, hf, ih]
    | ok a =>
      cases hd : parse_article_datePure a with
      | none => simp [gatherE, gatherItems, List.filterMap_cons, hf, hp a, hd, ih]
      | some dt =>
        cases ht : parse_article_title a with
        | none => simp [gatherE, gatherItems, List.filterMap_cons, hf, hp a, hd, ht, ih]
        | some t =>
          by_cases he : t = ""
          · simp [gatherE, gatherItems, List.filterMap_cons, hf, hp a, hd, ht, he, ih]
          · simp [gatherE, gatherItems, List.filterMap_cons, hf, hp a, hd, ht, he, ih,
              Except.map]

theorem collect_latest_items_eq (fetch : String → Except NetErr String) :
    collect_latest_items fetch = .ok ((isort (preItemsOf fetch)).take MAX_ITEMS) := by
  cases h : fetch NAPO_URL with
  | error e => simp [collect_latest_items, preItemsOf, h, isort]
  | ok wr =>
    simp [collect_latest_items, preItemsOf, h,
      gatherE_eq fetch (get_candidates_from_washington_report wr)]

/-! ## The dedup loop -/

theorem pyLoop_spec (l : List String) :
    ∀ acc, ∃ d, pyLoop l acc = acc ++ d ∧ d.Sublist l ∧ d.Nodup ∧
      (∀ x ∈ d, x ∉ acc) ∧ (∀ x ∈ l, x ∈ acc ∨ x ∈ d) := by
  induction l with
  | nil =>
    intro acc
    exact ⟨[], by simp [pyLoop]⟩
  | cons h t ih =>
    intro acc
    by_cases hmem : h ∈ acc
    · obtain ⟨d, heq, hsub, hnd, hnotin, hcov⟩ := ih acc
      refine ⟨d, ?_, hsub.cons h, hnd, hnotin, ?_⟩
      · simpa [pyLoop, hmem] using heq
      · intro x hx
        rcases List.mem_cons.mp hx with rfl | hx
        · exact Or.inl hmem
        · exact hcov x hx
    · obtain ⟨d, heq, hsub, hnd, hnotin, hcov⟩ := ih (acc ++ [h])
      refine ⟨h :: d, ?_, hsub.cons₂ h, ?_, ?_, ?_⟩
      · rw [show pyLoop (h :: t) acc = pyLoop t (acc ++ [h]) by simp [pyLoop, hmem],
          heq, List.append_assoc]
        rfl
      · exact List.nodup_cons.mpr
          ⟨fun hc => hnotin h hc (by simp), hnd⟩
      · intro x hx
        rcases List.mem_cons.mp hx with rfl | hx
        · exact hmem
        · intro hc
          exact hnotin x hx (by simp [hc])
      · intro x hx
        rcases List.mem_cons.mp hx with rfl | hx
        · exact Or.inr (by simp)
        · rcases hcov x hx with hacc | hd
          · rcases List.mem_append.mp hacc with h1 | h1
            · exact Or.inl h1
            · exact Or.inr (by simp [List.mem_singleton.mp h1])
          · exact Or.inr (List.mem_cons_of_mem h hd)

/-! ## Substring occurrence lemmas (for the rendered document) -/

theorem leadsWith_append {pat s : List Char} (t : List Char)
    (h : leadsWith pat s = true) : leadsWith pat (s ++ t) = true := by
  induction pat generalizing s with
  | nil => rfl
  | cons p ps ih =>
    cases s with
    | nil => exact absurd h (by simp [leadsWith])
    | cons c cs =>
      simp only [leadsWith, Bool.and_eq_true] at h
      obtain ⟨h1, h2⟩ := h
      simpa [leadsWith, h1] using ih h2

theorem leadsWith_append_of_long {pat s : List Char} (t : List Char)
    (hlen : pat.length ≤ s.length) (h : leadsWith pat s = false) :
    leadsWith pat (s ++ t) = false := by
  induction pat generalizing s with
  | nil => exact absurd h (by simp [leadsWith])
  | cons p ps ih =>
    cases s with
    | nil => simp at hlen
    | cons c cs =>
      simp only [leadsWith, List.cons_append] at h ⊢
      cases hpc : (p == c) with
      | false => simp [hpc]
      | true =>
        simp only [hpc, Bool.true_and] at h ⊢
        exact ih (by simpa using hlen) h

theorem containsSeg_append_left {pat a : List Char} (b : List Char)
    (h : containsSeg pat a = true) : containsSeg pat (a ++ b) = true := by
  induction a with
  | nil =>
    cases pat with
    | nil => cases b with
      | nil => exact h
      | cons x xs => simp [containsSeg, leadsWith]
    | cons p ps => exact absurd h (by simp [containsSeg, leadsWith])
  | cons c cs ih =>
    have h' := h
    simp only [containsSeg, Bool.or_eq_true] at h'
    rcases h' with h1 | h1
    · have := leadsWith_append (t := b) h1
      simp [containsSeg]
      exact Or.inl (by simpa using this)
    · simp [containsSeg]
      exact Or.inr (by simpa [containsSeg] using ih h1)

theorem containsSeg_append_right {pat : List Char} (a : List Char) {b : List Char}
    (h : containsSeg pat b = true) : containsSeg pat (a ++ b) = true := by
  induction a with
  | nil => exact h
  | cons c cs ih =>
    simp [containsSeg]
    exact Or.inr (by simpa using ih)

theorem containsSeg_append_of_spanSafe {p0 : Char} {pr : List Char} :
    ∀ {a : List Char}, spanSafeB p0 (p0 :: pr) a = true →
    ∀ b, containsSeg (p0 :: pr) (a ++ b) = containsSeg (p0 :: pr) b := by
  intro a
  induction a with
  | nil => intro _ b; rfl
  | cons c cs ih =>
    intro hsafe b
    have hsafe' := hsafe
    simp only [spanSafeB, Bool.and_eq_true] at hsafe'
    obtain ⟨hc, hcs⟩ := hsafe'
    have hlw : leadsWith (p0 :: pr) ((c :: cs) ++ b) = false := by
      by_cases hcp : c = p0
      · have hc' : (decide ((p0 :: pr).length ≤ (c :: cs).length) &&
            !(leadsWith (p0 :: pr) (c :: cs))) = true := by simpa [hcp] using hc
        simp only [Bool.and_eq_true, decide_eq_true_eq, Bool.not_eq_true'] at hc'
        obtain ⟨hlen, hnl⟩ := hc'
        exact leadsWith_append_of_long b hlen hnl
      · simp [leadsWith, beq_iff_eq]
        intro hne
        exact absurd hne.symm hcp
    have step : containsSeg (p0 :: pr) ((c :: cs) ++ b) =
        containsSeg (p0 :: pr) (cs ++ b) := by
      simp only [List.cons_append] at hlw ⊢
      simp [containsSeg, hlw]
    rw [step, ih hcs b]

theorem spanSafeB_of_no_head {p0 : Char} {pat l : List Char}
    (h : ∀ c ∈ l, c ≠ p0) : spanSafeB p0 pat l = true := by
  induction l with
  | nil => rfl
  | cons c cs ih =>
    have hc : c ≠ p0 := h c (by simp)
    simp only [spanSafeB, if_neg hc, Bool.true_and]
    exact ih (fun x hx => h x (List.mem_cons_of_mem c hx))

/-! ## Characters of the rendered timestamp -/

theorem digitChar_mem (n : Nat) : digitChar n ∈ "0123456789".data := by
  have h : n % 10 < 10 := Nat.mod_lt _ (by omega)
  exact (by decide : ∀ k, k < 10 → "0123456789".data.getD k '0' ∈ "0123456789".data)
    (n % 10) h

theorem natDigitsGo_mem {c : Char} :
    ∀ fuel n, c ∈ natDigitsGo fuel n → c ∈ "0123456789".data := by
  intro fuel
  induction fuel with
  | zero => intro n h; exact absurd h (by simp [natDigitsGo])
  | succ f ih =>
    intro n h
    by_cases hn : n < 10
    · have : c ∈ [digitChar n] := by simpa [natDigitsGo, hn] using h
      simpa [List.mem_singleton.mp this] using digitChar_mem n
    · have : c ∈ natDigitsGo f (n / 10) ∨ c ∈ [digitChar n] := by
        simpa [natDigitsGo, hn, List.mem_append] using h
      rcases this with h1 | h1
      · exact ih _ h1
      · simpa [List.mem_singleton.mp h1] using digitChar_mem n

theorem padNat_mem {c : Char} {w n : Nat} (h : c ∈ padNat w n) :
    c ∈ "0123456789".data := by
  rcases List.mem_append.mp h with h1 | h1
  · rw [List.eq_of_mem_replicate h1]
    decide
  · exact natDigitsGo_mem _ _ h1

theorem weekdayName_mem {c : Char} {y m d : Nat}
    (h : c ∈ (weekdayName y m d).data) : c ∈ "MonTueWdhFriSat".data := by
  have hlt : (pythonOrdinal y m d + 6) % 7 < 7 := Nat.mod_lt _ (by omega)
  exact (by decide : ∀ k, k < 7 → ∀ x ∈ (dayAbbrevs.getD k "").data,
    x ∈ "MonTueWdhFriSat".data) _ hlt c h

theorem monAbbrev_mem {c : Char} {m : Nat}
    (h : c ∈ (monAbbrevs.getD (m - 1) "").data) : c ∈ "JanFebMrApyulgSOctNovD".data := by
  by_cases hm : m - 1 < 12
  · exact (by decide : ∀ k, k < 12 → ∀ x ∈ (monAbbrevs.getD k "").data,
      x ∈ "JanFebMrApyulgSOctNovD".data) _ hm c h
  · rw [List.getD_eq_default _ _ (by simpa [monAbbrevs] using Nat.le_of_not_lt hm)] at h
    exact absurd h (by simp)

theorem rfc2822_no_lt (dt : DateTime) : ∀ c ∈ rfc2822L dt, c ≠ '<' := by
  intro c hc
  simp only [rfc2822L, List.mem_append] at hc
  rcases hc with (((((((((((((h | h) | h) | h) | h) | h) | h) | h) | h) | h) | h) | h) | h) | h)
  · exact fun he => absurd (weekdayName_mem h) (by rw [he]; decide)
  · exact fun he => absurd h (by rw [he]; decide)
  · exact fun he => absurd (padNat_mem h) (by rw [he]; decide)
  · exact fun he => absurd h (by rw [he]; decide)
  · exact fun he => absurd (monAbbrev_mem h) (by rw [he]; decide)
  · exact fun he => absurd h (by rw [he]; decide)
  · exact fun he => absurd (padNat_mem h) (by rw [he]; decide)
  · exact fun he => absurd h (by rw [he]; decide)
  · exact fun he => absurd (padNat_mem h) (by rw [he]; decide)
  · exact fun he => absurd h (by rw [he]; decide)
  · exact fun he => absurd (padNat_mem h) (by rw [he]; decide)
  · exact fun he => absurd h (by rw [he]; decide)
  · exact fun he => absurd (padNat_mem h) (by rw [he]; decide)
  · exact fun he => absurd h (by rw [he]; decide)

/-! ## Bounds carried by a successful ISO parse -/

theorem finishIso_bounds {y mo dy h mi s us : Nat} {off : Option Int}
    {p : DateTime} {o2 : Option Int}
    (he : finishIso y mo dy h mi s us off = some (p, o2)) :
    p.hour ≤ 23 ∧ p.minute ≤ 59 ∧ p.second ≤ 59 := by
  rw [finishIso] at he
  split_ifs at he with hcond
  have hpe : DateTime.mk y mo dy h mi s us = p ∧ off = o2 := by
    simpa [Prod.ext_iff] using he
  obtain ⟨hp, _⟩ := hpe
  subst hp
  exact ⟨hcond.2.2.2.2.2.2.1, hcond.2.2.2.2.2.2.2.1, hcond.2.2.2.2.2.2.2.2⟩

theorem parseIsoCh_bounds {l : List Char} {p : DateTime} {o : Option Int}
    (h : parseIsoCh l = some (p, o)) :
    p.hour ≤ 23 ∧ p.minute ≤ 59 ∧ p.second ≤ 59 := by
  unfold parseIsoCh at h
  repeat' split at h
  all_goals first
    | exact finishIso_bounds h
    | simp_all

/-- Subtracting a zero offset leaves a valid wall-clock time unchanged. -/
theorem astimezoneUTC_zero {p : DateTime} (hh : p.hour ≤ 23)
    (hm : p.minute ≤ 59) (hs : p.second ≤ 59) : astimezoneUTC p 0 = p := by
  obtain ⟨y, mo, d, h, mi, s, us⟩ := p
  simp only at hh hm hs
  simp only [astimezoneUTC, sub_zero]
  rw [if_neg (by push_cast; omega), if_pos (by push_cast; omega)]
  simp only [DateTime.mk.injEq, eq_self_iff_true, true_and, and_true]
  refine ⟨?_, ?_, ?_⟩ <;> (norm_cast; omega)

/-- Replacing `Z` in `core ++ "Z"` when `core` itself has no `Z`. -/
theorem pyReplaceZL_append_z {core : List Char} (hz : 'Z' ∉ core) :
    pyReplaceZL (core ++ ['Z']) = core ++ "+00:00".data := by
  induction core with
  | nil => rfl
  | cons c cs ih =>
    have hc : c ≠ 'Z' := fun he => hz (by simp [he])
    have hcs : 'Z' ∉ cs := fun hmem => hz (List.mem_cons_of_mem _ hmem)
    simp [pyReplaceZL, hc, ih hcs]

/-! ## Escape-output lemmas -/

theorem replChar_self_not_mem {c : Char} {r l : List Char} (hc : c ∉ r) :
    c ∉ replChar c r l := by
  induction l with
  | nil => simp [replChar]
  | cons y ys ih =>
    intro hmem
    have hmem' : c ∈ (if y = c then r else [y]) ++ replChar c r ys := by
      simpa [replChar] using hmem
    rcases List.mem_append.mp hmem' with h1 | h1
    · by_cases hy : y = c
      · have h2 : c ∈ r := by simpa [hy] using h1
        exact hc h2
      · have h2 : c ∈ [y] := by simpa [hy] using h1
        exact hy (List.mem_singleton.mp h2).symm
    · exact ih h1

theorem replChar_preserve_not_mem {x c : Char} {r l : List Char} (hr : x ∉ r) :
    x ∉ l → x ∉ replChar c r l := by
  induction l with
  | nil => simp [replChar]
  | cons y ys ih =>
    intro hx hmem
    have hxy : x ≠ y := fun he => hx (by simp [he])
    have hxs : x ∉ ys := fun hmem2 => hx (List.mem_cons_of_mem _ hmem2)
    have hmem' : x ∈ (if y = c then r else [y]) ++ replChar c r ys := by
      simpa [replChar] using hmem
    rcases List.mem_append.mp hmem' with h1 | h1
    · by_cases hy : y = c
      · have h2 : x ∈ r := by simpa [hy] using h1
        exact hr h2
      · have h2 : x ∈ [y] := by simpa [hy] using h1
        exact hxy (List.mem_singleton.mp h2)
    · exact ih hxs h1

theorem htmlEscapeL_no_raw (l : List Char) :
    '<' ∉ htmlEscapeL l ∧ '"' ∉ htmlEscapeL l ∧ '>' ∉ htmlEscapeL l := by
  refine ⟨?_, ?_, ?_⟩
  · exact replChar_preserve_not_mem (show ('<':Char) ∉ "&#x27;".data by decide)
      (replChar_preserve_not_mem (show ('<':Char) ∉ "&quot;".data by decide)
        (replChar_preserve_not_mem (show ('<':Char) ∉ "&gt;".data by decide)
          (replChar_self_not_mem (show ('<':Char) ∉ "&lt;".data by decide))))
  · exact replChar_preserve_not_mem (show ('"':Char) ∉ "&#x27;".data by decide)
      (replChar_self_not_mem (show ('"':Char) ∉ "&quot;".data by decide))
  · exact replChar_preserve_not_mem (show ('>':Char) ∉ "&#x27;".data by decide)
      (replChar_preserve_not_mem (show ('>':Char) ∉ "&quot;".data by decide)
        (replChar_self_not_mem (show ('>':Char) ∉ "&gt;".data by decide)))

/-! ## The claims -/

/-- C1: for every run (and every list of parsed items), the Aggregator
returns the items sorted by publish date descending — ties between equal
dates kept in original candidate order (stable sort) — truncated to at most
`MAX_ITEMS` entries. -/
theorem claim_C1_sorted_stable_capped :
    (∀ fetch : String → Except NetErr String,
      collect_latest_items fetch = .ok ((isort (preItemsOf fetch)).take MAX_ITEMS)) ∧
    (∀ l : List Item,
      (isort l).Pairwise (fun a b => itemGe a b = true) ∧
      (∀ dv : DateTime, (isort l).filter (fun it => it.date_dt == dv) =
        l.filter (fun it => it.date_dt == dv)) ∧
      ((isort l).take MAX_ITEMS).length ≤ MAX_ITEMS) :=
  ⟨collect_latest_items_eq,
   fun l => ⟨isort_pairwise l, isort_filter_date l,
     by rw [List.length_take]; exact min_le_left _ _⟩⟩

/-- C10: `parse_article_date` is total — it returns a result (`Some`
datetime or `None`) for every input and never lets an exception escape:
every branch of the strategy cascade yields `.ok`. -/
theorem claim_C10_parse_article_date_total (s : String) :
    ∃ r : Option DateTime, parse_article_date s = .ok r :=
  parse_article_date_ok s

/-- C9: rendering is deterministic in the item list — the document
decomposes as fixed text around the build timestamp, with the item blocks
depending only on the items, so two invocations on the same list differ at
most in the `lastBuildDate` field. -/
theorem claim_C9_render_deterministic (items : List Item) :
    ∃ pre mid post : String, ∀ now : DateTime,
      build_rss now items =
        pre ++ (to_rfc2822 now ++ (mid ++ (joinNl (items.map rssItem) ++ post))) :=
  ⟨channelPre, "</lastBuildDate>\n", "\n  </channel>\n</rss>\n", fun _ => rfl⟩

/-- The rendered empty feed, split at the build timestamp. -/
theorem build_rss_empty_data (now : DateTime) :
    (build_rss now []).data =
      channelPre.data ++ (rfc2822L now ++
        ("</lastBuildDate>\n".data ++ "\n  </channel>\n</rss>\n".data)) := rfl

set_option maxRecDepth 16000

/-- C2: a listing-page `HTTPError`/`URLError` yields an empty item list
(no exception), and the rendered empty feed still contains an intact
channel block with zero `<item` entries. -/
theorem claim_C2_listing_failure_empty_feed
    (fetch : String → Except NetErr String) (e : NetErr) (now : DateTime)
    (hf : fetch NAPO_URL = .error e) :
    collect_latest_items fetch = .ok [] ∧
    containsSeg "<channel>".data (build_rss now []).data = true ∧
    containsSeg "</channel>".data (build_rss now []).data = true ∧
    containsSeg "<item".data (build_rss now []).data = false := by
  refine ⟨by simp [collect_latest_items, hf], ?_, ?_, ?_⟩
  · rw [build_rss_empty_data]
    exact containsSeg_append_left _ (by decide)
  · rw [build_rss_empty_data]
    exact containsSeg_append_right _ (containsSeg_append_right _
      (containsSeg_append_right _ (by decide)))
  · rw [build_rss_empty_data]
    rw [show ("<item".data : List Char) = '<' :: "item".data from rfl]
    rw [containsSeg_append_of_spanSafe (by decide) _]
    rw [containsSeg_append_of_spanSafe
      (spanSafeB_of_no_head (fun c hc => rfc2822_no_lt now c hc)) _]
    decide

theorem claim_C2_witness :
    ((fun _ : String => (.error .urlError : Except NetErr String)) NAPO_URL
        = .error NetErr.urlError) ∧
    (collect_latest_items (fun _ => .error .urlError) = .ok [] ∧
     containsSeg "<channel>".data (build_rss ⟨2026, 1, 1, 0, 0, 0, 0⟩ []).data = true ∧
     containsSeg "</channel>".data (build_rss ⟨2026, 1, 1, 0, 0, 0, 0⟩ []).data = true ∧
     containsSeg "<item".data (build_rss ⟨2026, 1, 1, 0, 0, 0, 0⟩ []).data = false) :=
  ⟨rfl, claim_C2_listing_failure_empty_feed (fun _ => .error .urlError) .urlError
    ⟨2026, 1, 1, 0, 0, 0, 0⟩ rfl⟩

/-- C3: every item the Aggregator emits comes from a candidate page whose
date AND title both parsed successfully (with the title non-empty, Python
truthiness); no partial or placeholder record exists in the output. -/
theorem claim_C3_no_partial_records (fetch : String → Except NetErr String)
    (items : List Item) (hc : collect_latest_items fetch = .ok items) :
    ∀ it ∈ items, ∃ wr url a,
      fetch NAPO_URL = .ok wr ∧
      url ∈ get_candidates_from_washington_report wr ∧
      fetch url = .ok a ∧
      parse_article_date a = .ok (some it.date_dt) ∧
      parse_article_title a = some it.title ∧
      it.title ≠ "" ∧ it.link = url := by
  intro it hit
  have hitems : items = (isort (preItemsOf fetch)).take MAX_ITEMS := by
    have h2 := hc.symm.trans (collect_latest_items_eq fetch)
    simpa using h2
  subst hitems
  have h1 : it ∈ isort (preItemsOf fetch) := (List.take_sublist _ _).subset hit
  have h2 : it ∈ preItemsOf fetch := mem_isort.mp h1
  cases hw : fetch NAPO_URL with
  | error e =>
    rw [preItemsOf, hw] at h2
    exact absurd h2 (by simp)
  | ok wr =>
    rw [preItemsOf, hw] at h2
    obtain ⟨url, hurl, hf⟩ := List.mem_filterMap.mp h2
    refine ⟨wr, url, ?_⟩
    cases hfu : fetch url with
    | error e =>
      simp only [hfu] at hf
      exact absurd hf (by simp)
    | ok a =>
      simp only [hfu] at hf
      cases hd : parse_article_datePure a with
      | none =>
        simp only [hd] at hf
        exact absurd hf (by simp)
      | some dt =>
        simp only [hd] at hf
        cases ht : parse_article_title a with
        | none =>
          simp only [ht] at hf
          exact absurd hf (by simp)
        | some t =>
          simp only [ht] at hf
          by_cases he : t = ""
          · simp only [if_pos he] at hf
            exact absurd hf (by simp)
          · simp only [if_neg he] at hf
            have hi : Item.mk t dt url = it := by simpa using hf
            refine ⟨a, rfl, hurl, rfl, ?_, ?_, ?_, ?_⟩
            · rw [parse_article_date_eq_pure a, hd, ← hi]
            · rw [ht, ← hi]
            · rw [← hi]; exact he
            · rw [← hi]

theorem claim_C3_witness :
    ∃ wr url a,
      fetchW NAPO_URL = .ok wr ∧
      url ∈ get_candidates_from_washington_report wr ∧
      fetchW url = .ok a ∧
      parse_article_date a = .ok (some itemW.date_dt) ∧
      parse_article_title a = some itemW.title ∧
      itemW.title ≠ "" ∧ itemW.link = url :=
  claim_C3_no_partial_records fetchW [itemW] rfl itemW (by simp)

/-- C4 counterexample: with sixteen distinct `/news/` URLs on the listing
page, the sixteenth distinct URL is matched by the scan but absent from the
extractor's result — the claim "each distinct resolved URL exactly once"
fails beyond the cap of 15. -/
theorem claim_C4_counterexample :
    "https://www.napo.org/news/p16" ∈ newsUrlsAll bigListing ∧
    "https://www.napo.org/news/p16" ∉ get_candidates_from_washington_report bigListing := by
  constructor
  · decide
  · decide

/-- C4 (amended): the extractor returns the distinct resolved URLs in
first-occurrence order, each at most once — and each exactly once whenever
there are at most 15 of them — but truncated to the first 15. -/
theorem claim_C4_dedup_first_order_capped (page : String) :
    get_candidates_from_washington_report page =
      (pyLoop (newsUrlsAll page) []).take 15 ∧
    (get_candidates_from_washington_report page).Nodup ∧
    List.Sublist (get_candidates_from_washington_report page) (newsUrlsAll page) ∧
    ((pyLoop (newsUrlsAll page) []).length ≤ 15 →
      ∀ u ∈ newsUrlsAll page, u ∈ get_candidates_from_washington_report page) := by
  obtain ⟨d, heq, hsub, hnd, hnotin, hcov⟩ := pyLoop_spec (newsUrlsAll page) []
  have hd : pyLoop (newsUrlsAll page) [] = d := by simpa using heq
  refine ⟨rfl, ?_, ?_, ?_⟩
  · rw [get_candidates_from_washington_report, hd]
    exact hnd.sublist (List.take_sublist _ _)
  · rw [get_candidates_from_washington_report, hd]
    exact (List.take_sublist _ _).trans hsub
  · intro hlen u hu
    rw [get_candidates_from_washington_report, hd,
      List.take_of_length_le (by rw [← hd]; exact hlen)]
    rcases hcov u hu with habs | hmem
    · exact absurd habs (by simp)
    · exact hmem

theorem claim_C4_witness :
    "https://www.napo.org/news/a" ∈ get_candidates_from_washington_report smallListing :=
  (claim_C4_dedup_first_order_capped smallListing).2.2.2 (by decide)
    "https://www.napo.org/news/a" (by decide)

/-- Helper for C5/C6: when strategy 1 produces nothing, `parse_article_date`
is exactly the remaining cascade. -/
theorem parse_article_date_meta_none (html : String)
    (h0 : metaDateResult html = none) :
    parse_article_date html = dateFromTimeOrText html := by
  cases hm : metaPublishedTimeSearch html with
  | none => simp [parse_article_date, hm]
  | some cap =>
    cases hfe : fromisoformatE (pyReplaceZ (pyStrip cap)) with
    | error e2 => simp [parse_article_date, hm, hfe]
    | ok r =>
      have : metaDateResult html = some (dropTz r) := by
        simp [metaDateResult, hm, hfe]
      rw [this] at h0
      exact absurd h0 (by simp)

/-- C5: a structured published-time value that is an ISO-8601 timestamp
with a `Z` suffix parses to the naive UTC wall-clock datetime: the `Z`
becomes `+00:00`, and dropping the zero offset leaves the written
components unchanged. -/
theorem claim_C5_meta_z_suffix_utc (html cap : String) (core : List Char)
    (p : DateTime)
    (h1 : metaPublishedTimeSearch html = some cap)
    (h2 : pyStrip cap = ⟨core ++ ['Z']⟩)
    (h3 : 'Z' ∉ core)
    (h4 : fromisoformatE ⟨core ++ "+00:00".data⟩ = .ok (p, some 0)) :
    parse_article_date html = .ok (some p) := by
  have hrep : pyReplaceZ (pyStrip cap) = ⟨core ++ "+00:00".data⟩ := by
    rw [h2]
    show String.mk (pyReplaceZL (core ++ ['Z'])) = _
    rw [pyReplaceZL_append_z h3]
  have hparse : parseIsoCh (core ++ "+00:00".data) = some (p, some 0) := by
    cases hpc : parseIsoCh (core ++ "+00:00".data) with
    | none =>
      have : fromisoformatE ⟨core ++ "+00:00".data⟩ = .error .valueError := by
        simp [fromisoformatE, hpc]
      rw [this] at h4
      exact absurd h4 (by simp)
    | some r =>
      have : fromisoformatE ⟨core ++ "+00:00".data⟩ = .ok r := by
        simp [fromisoformatE, hpc]
      rw [this] at h4
      have hr : r = (p, some 0) := by simpa using h4
      rw [hr]
  have hb := parseIsoCh_bounds hparse
  have hfe : fromisoformatE (pyReplaceZ (pyStrip cap)) = .ok (p, some 0) := by
    rw [hrep]; exact h4
  simp only [parse_article_date, h1, hfe]
  simp [dropTz, astimezoneUTC_zero hb.1 hb.2.1 hb.2.2]

theorem claim_C5_witness :
    parse_article_date
      "<meta property=\"article:published_time\" content=\"2026-02-01T15:30:00Z\"/>" =
      .ok (some ⟨2026, 2, 1, 15, 30, 0, 0⟩) :=
  claim_C5_meta_z_suffix_utc _ "2026-02-01T15:30:00Z" "2026-02-01T15:30:00".data
    ⟨2026, 2, 1, 15, 30, 0, 0⟩ rfl rfl (by decide) rfl

/-- C6: when the meta strategy yields nothing, the `<time>` datetime
attribute is found, its full ISO parse raises, and its first ten characters
parse as `%Y-%m-%d`, `parse_article_date` returns that calendar date. -/
theorem claim_C6_time_first10_fallback (html cap : String) (e : PyErr)
    (d : DateTime)
    (h0 : metaDateResult html = none)
    (h1 : timeDatetimeSearch html = some cap)
    (h2 : fromisoformatE (pyReplaceZ (pyStrip cap)) = .error e)
    (h3 : strptimeYmdE (strTake 10 (pyStrip cap)) = .ok d) :
    parse_article_date html = .ok (some d) := by
  rw [parse_article_date_meta_none html h0]
  simp [dateFromTimeOrText, h1, h2, h3]

theorem claim_C6_witness :
    parse_article_date "<p><time datetime=\"2026-03-05T99:88\">x</time></p>" =
      .ok (some ⟨2026, 3, 5, 0, 0, 0, 0⟩) :=
  claim_C6_time_first10_fallback _ "2026-03-05T99:88" .valueError
    ⟨2026, 3, 5, 0, 0, 0, 0⟩ rfl rfl rfl rfl

/-- C7: a structured published-time value that is present but fails strict
ISO parsing does not raise and yields nothing from strategy 1:
`parse_article_date` equals the remaining cascade (the `<time>` element,
then the `Month DD, YYYY` free-text pattern). -/
theorem claim_C7_meta_parse_failure_falls_through (html cap : String) (e : PyErr)
    (h1 : metaPublishedTimeSearch html = some cap)
    (h2 : fromisoformatE (pyReplaceZ (pyStrip cap)) = .error e) :
    parse_article_date html = dateFromTimeOrText html := by
  simp [parse_article_date, h1, h2]

theorem claim_C7_witness :
    parse_article_date
        "<meta property=\"article:published_time\" content=\"not-a-date\"/><p>March 2, 2026</p>" =
      dateFromTimeOrText
        "<meta property=\"article:published_time\" content=\"not-a-date\"/><p>March 2, 2026</p>" :=
  claim_C7_meta_parse_failure_falls_through _ "not-a-date" .valueError rfl rfl

/-- C8: every interpolation site of the item template applies
`htmlEscape` — the title field and all four URL sites, including both
embedded `link_html` snippets — the escape output carries no raw `<`, `"`
or `>`, and the scenario title with `<`, `&` and `"` is rendered with each
escaped. -/
theorem claim_C8_reserved_characters_escaped :
    (∀ it : Item, rssItem it =
      "    <item>\n      <title>" ++ (htmlEscape it.title ++
        ("</title>\n      <link>" ++ (htmlEscape it.link ++
          ("</link>\n      <guid isPermaLink=\"true\">" ++ (htmlEscape it.link ++
            ("</guid>\n      <pubDate>" ++ (to_rfc2822 it.date_dt ++
              ("</pubDate>\n      <description><![CDATA[" ++ (dateBdY it.date_dt ++
                ("<br/>" ++ (link_html it.link ++
                  ("]]></description>\n      <content:encoded><![CDATA[" ++
                    (link_html it.link ++
                      "]]></content:encoded>\n    </item>")))))))))))))) ∧
    (∀ link : String, link_html link =
      "<p><a href=\"" ++ (htmlEscape link ++
        "\">Open the full article on NAPO</a></p>")) ∧
    htmlEscape "A <b> & \"q\"" = "A &lt;b&gt; &amp; &quot;q&quot;" ∧
    (∀ s : String, '<' ∉ (htmlEscape s).data ∧ '"' ∉ (htmlEscape s).data ∧
      '>' ∉ (htmlEscape s).data) :=
  ⟨fun _ => rfl, fun _ => rfl, rfl, fun s => htmlEscapeL_no_raw s.data⟩
